import Mathlib

/-!
# SoapySDRUtil: the `receive` command

A shallow embedding of `receive()` from `apps/SoapySDRUtil.cpp` together with
the process-wide variables it reads, and theorems about its sanity checks, its
read loop and its release of the stream and the device.

Modelling choices.

* The device library is an external collaborator.  What it answers is data:
  `Device` holds the answers of the capability queries and of
  `activateStream`, and a list of `ReadStep`s holds, for each turn of the read
  loop, what `readStream` returned and the value of `signalReceivedDoExit`
  seen by the test on the line after it.  The calls made on the device and the
  completed `fwrite` calls are recorded, in program order, in a list of
  `Event`s.
* The allocator is part of the environment too: `malloc : Nat → Bool` tells
  for each size whether the request is satisfied.  The buffer is represented
  by the number of bytes it holds, 0 for a `NULL` buffer.  A call of `fwrite`
  that would read more bytes than the buffer holds ends the run with
  `Outcome.fault`: with a `NULL` buffer the process is killed there, with a
  buffer that is too short the behaviour is undefined.  What `readStream`
  itself does with the buffer is inside the device library and not modelled.
* `double` values are exact rationals.  Comparison of finite doubles is exact,
  so the model agrees with the program on every finite value; NaN and the
  infinities are outside the model.
* `size_t` values are `Nat` and `int` values are `Int`.  The arithmetic of
  `receive` on them is the product `numBytesPerSample*currentBufferSize` of
  two `int`s, modelled with its 32-bit wrap-around (`toInt`), and the
  conversions of that product and of `currentBufferSize` to `size_t`
  (`toSizeT`).
* Calls into the device library return normally: an exception raised by the
  library itself is outside the model.  The exceptions thrown by `receive`
  are modelled, each as a constructor of `Error`.
* The read loop is `while(true)`.  It is run against a finite list of read
  steps; when the list ends before the loop does, the result is
  `Outcome.running`: the program is still in the loop.
-/

namespace SoapySDRUtil

/-- One entry of a `SoapySDR::RangeList`. -/
structure Range where
  minimum : ℚ
  maximum : ℚ
  deriving DecidableEq

/-- The process-wide variables set by the command-line options and read by
`receive`, with their initial values as default.  In the source
`currentChannel` is a `size_t` and `currentBufferSize` an `int`. -/
structure Globals where
  currentChannel : Nat := 0
  currentFrequencySet : Bool := false
  currentFrequency : ℚ := 0
  currentSampleRateSet : Bool := false
  currentSampleRate : ℚ := 0
  currentBufferSize : Int := 1024 * 96
  deriving DecidableEq

/-- The answers of the device to the calls `receive` makes before the read
loop.  The field `numBytesPerSample` is the value of the `int` variable of
that name, the size `formatToSize` gives for the native stream format.  The
list of sample rates is what `listSampleRates` would answer; the only use of
it in the source is commented out. -/
structure Device where
  getNumChannels : Nat
  getFrequencyRange : Nat → List Range
  listSampleRates : Nat → List ℚ
  numBytesPerSample : Nat
  activateStream : Int

/-- One turn of the read loop as the environment decides it: the value
returned by `readStream` and the value of `signalReceivedDoExit` read by the
test that follows the call. -/
structure ReadStep where
  result : Int
  signalReceivedDoExit : Bool
  deriving DecidableEq

/-- The calls recorded in a trace: the calls on the device library and the
completed writes to standard output. -/
inductive Event where
  | make
  | probe
  | getNumChannels
  | getFrequencyRange (channel : Nat)
  | setSampleRate (channel : Nat) (rate : ℚ)
  | setFrequency (channel : Nat) (frequency : ℚ)
  | getNativeStreamFormat (channel : Nat)
  | setupStream (channel : Nat)
  | activateStream
  | readStream (numElems : Nat)
  | fwrite (size : Nat) (nmemb : Nat)
  | deactivateStream
  | closeStream
  | unmake
  deriving DecidableEq

/-- The exceptions thrown by `receive`. -/
inductive Error where
  | invalidChannel
  | frequencyMissing
  | frequencyOutOfRange
  | samplerateMissing
  | invalidSampleRate
  | activateStreamError (result : Int)
  | readStreamError (result : Int)
  deriving DecidableEq

/-- The text of each exception, as built at its `throw`. -/
def Error.what : Error → String
  | .invalidChannel => "invalid channel"
  | .frequencyMissing => "--frequency is missing"
  | .frequencyOutOfRange => "frequency out of range, use --info to show valid range"
  | .samplerateMissing => "--samplerate is missing"
  | .invalidSampleRate => "invalid sample rate"
  | .activateStreamError result => "activateStream error " ++ toString result
  | .readStreamError result => "readStream error " ++ toString result

def EXIT_SUCCESS : Nat := 0

def EXIT_FAILURE : Nat := 1

/-- The largest value of an `int`. -/
def INT_MAX : Int := 2 ^ 31 - 1

/-- The largest size an allocation can have. -/
def PTRDIFF_MAX : Nat := 2 ^ 63 - 1

/-- How a run of `receive` stands at the end of the recorded read steps:
returned with a status (and the exception the `catch` block printed, if any),
still in the read loop, or ended by a read outside the buffer. -/
inductive Outcome where
  | exited (status : Nat) (caught : Option Error)
  | running
  | fault
  deriving DecidableEq

/-- A run of `receive`: the calls made, in order, and how it stands. -/
structure Run where
  trace : List Event
  outcome : Outcome
  deriving DecidableEq

/-- How the read loop stands at the end of the recorded read steps. -/
inductive LoopEnd where
  | exitRequested
  | thrown (result : Int)
  | running
  | fault
  deriving DecidableEq

/-- Conversion of an `int` to `size_t` (64 bits). -/
def toSizeT (i : Int) : Nat := (i % 2 ^ 64).toNat

/-- The value an `int` holds for the result of an `int` multiplication: the
result itself when it is in the range of `int`, and otherwise the result
wrapped to 32 bits, which is what the machine multiplication leaves (in C the
behaviour is then undefined). -/
def toInt (i : Int) : Int := (i + 2 ^ 31) % 2 ^ 32 - 2 ^ 31

/-- The call `malloc(numBytesPerSample*currentBufferSize)`: the number of
bytes of the buffer it gives, which is 0 when it answers `NULL`.  A request
above `PTRDIFF_MAX`, as a negative product converted to `size_t` is, is never
satisfied. -/
def bufferCapacity (malloc : Nat → Bool) (numBytesPerSample : Nat)
    (currentBufferSize : Int) : Nat :=
  let size := toSizeT (toInt (numBytesPerSample * currentBufferSize))
  if size ≤ PTRDIFF_MAX ∧ malloc size = true then size else 0

/-- The `for` loop over `freqRanges`: `true` when it throws. -/
def frequencyLoopThrows (currentFrequency : ℚ) : List Range → Bool
  | [] => false
  | r :: rest =>
    if currentFrequency < r.minimum ∨ currentFrequency > r.maximum then true
    else frequencyLoopThrows currentFrequency rest

/-- The `while(true)` loop of `receive`, run against the recorded read steps
with a buffer of `capacity` bytes.  Returns the calls made and how the loop
stands.  The call `fwrite(buffer, result, numBytesPerSample, stdout)` reads
`result * numBytesPerSample` bytes of the buffer. -/
def readLoop (capacity numElems numBytesPerSample : Nat) :
    List ReadStep → List Event × LoopEnd
  | [] => ([], .running)
  | step :: rest =>
    if step.signalReceivedDoExit then ([.readStream numElems], .exitRequested)
    else if step.result > 0 then
      if step.result.toNat * numBytesPerSample ≤ capacity then
        let r := readLoop capacity numElems numBytesPerSample rest
        (.readStream numElems :: .fwrite step.result.toNat numBytesPerSample :: r.1, r.2)
      else ([.readStream numElems], .fault)
    else if step.result = 0 then
      let r := readLoop capacity numElems numBytesPerSample rest
      (.readStream numElems :: r.1, r.2)
    else if step.result = -4 then
      let r := readLoop capacity numElems numBytesPerSample rest
      (.readStream numElems :: r.1, r.2)
    else ([.readStream numElems], .thrown step.result)

/-- The `catch` block: the exception is printed and `EXIT_FAILURE` returned.
No call on the device is made there. -/
def caught (trace : List Event) (ex : Error) : Run :=
  ⟨trace, .exited EXIT_FAILURE (some ex)⟩

/-- The calls made between the sanity checks and the read loop. -/
def configureCalls (g : Globals) : List Event :=
  [.setSampleRate g.currentChannel g.currentSampleRate,
   .setFrequency g.currentChannel g.currentFrequency,
   .getNativeStreamFormat g.currentChannel,
   .setupStream g.currentChannel,
   .activateStream]

/-- The function `receive`. -/
def receive (g : Globals) (d : Device) (malloc : Nat → Bool) (steps : List ReadStep) : Run :=
  let t0 : List Event := [.make, .probe, .getNumChannels]
  if g.currentChannel ≥ d.getNumChannels then caught t0 .invalidChannel
  else if !g.currentFrequencySet then caught t0 .frequencyMissing
  else
    let t1 := t0 ++ [.getFrequencyRange g.currentChannel]
    if frequencyLoopThrows g.currentFrequency (d.getFrequencyRange g.currentChannel) then
      caught t1 .frequencyOutOfRange
    else if !g.currentSampleRateSet then caught t1 .samplerateMissing
    else if g.currentSampleRate ≤ 0 then caught t1 .invalidSampleRate
    else
      let t2 := t1 ++ configureCalls g
      if d.activateStream < 0 then caught t2 (.activateStreamError d.activateStream)
      else
        let capacity := bufferCapacity malloc d.numBytesPerSample g.currentBufferSize
        match readLoop capacity (toSizeT g.currentBufferSize) d.numBytesPerSample steps with
        | (t, .thrown result) => caught (t2 ++ t) (.readStreamError result)
        | (t, .exitRequested) =>
          ⟨t2 ++ t ++ [.deactivateStream, .closeStream, .unmake], .exited EXIT_SUCCESS none⟩
        | (t, .running) => ⟨t2 ++ t, .running⟩
        | (t, .fault) => ⟨t2 ++ t, .fault⟩

/-! ### The validator as the specification words it -/

/-- The rules of the parameter validator in the order the specification
gives them, the third being: the frequency lies within at least one of the
reported ranges, bounds included.  Returns the first rule that fails. -/
def specValidate (g : Globals) (d : Device) : Option Error :=
  if g.currentChannel ≥ d.getNumChannels then some .invalidChannel
  else if !g.currentFrequencySet then some .frequencyMissing
  else if !((d.getFrequencyRange g.currentChannel).any fun r =>
      decide (r.minimum ≤ g.currentFrequency ∧ g.currentFrequency ≤ r.maximum)) then
    some .frequencyOutOfRange
  else if !g.currentSampleRateSet then some .samplerateMissing
  else if g.currentSampleRate ≤ 0 then some .invalidSampleRate
  else none

/-! ### Reading a trace -/

/-- The writes to standard output of a trace: one entry for each `fwrite`
call, holding the number of bytes of that call, which for
`fwrite(ptr, size, nmemb, stream)` is `size * nmemb`. -/
def writes (trace : List Event) : List Nat :=
  trace.filterMap fun e =>
    match e with
    | .fwrite size nmemb => some (size * nmemb)
    | _ => none

/-- Holds the value `true` on the `readStream` calls. -/
def Event.isReadStream : Event → Bool
  | .readStream _ => true
  | _ => false

/-- The number of `readStream` calls of a trace. -/
def readCount (trace : List Event) : Nat := trace.countP Event.isReadStream

/-- The calls one turn of the read loop makes when the exit flag is not set
and the result is not a fatal one: the read, and a write when the result is
positive. -/
def stepCalls (numElems numBytesPerSample : Nat) (result : Int) : List Event :=
  if result > 0 then [.readStream numElems, .fwrite result.toNat numBytesPerSample]
  else [.readStream numElems]

/-- The calls of a run of turns none of which ends the loop. -/
def loopCalls (numElems numBytesPerSample : Nat) : List ReadStep → List Event
  | [] => []
  | s :: rest =>
    stepCalls numElems numBytesPerSample s.result ++ loopCalls numElems numBytesPerSample rest

/-- A turn of the read loop that does not end it: the exit flag is not set
and the result is a count, or the overflow code `-4`. -/
def ReadStep.Continues (s : ReadStep) : Prop :=
  s.signalReceivedDoExit = false ∧ (0 ≤ s.result ∨ s.result = -4)

instance (s : ReadStep) : Decidable s.Continues :=
  inferInstanceAs (Decidable (_ ∧ _))

/-- The calls made up to the read loop when every sanity check passes. -/
def setupCalls (g : Globals) : List Event :=
  [.make, .probe, .getNumChannels, .getFrequencyRange g.currentChannel] ++ configureCalls g

/-- The sanity checks of `receive` all pass. -/
def SanityChecksPass (g : Globals) (d : Device) : Prop :=
  g.currentChannel < d.getNumChannels ∧ g.currentFrequencySet = true ∧
  frequencyLoopThrows g.currentFrequency (d.getFrequencyRange g.currentChannel) = false ∧
  g.currentSampleRateSet = true ∧ 0 < g.currentSampleRate

instance (g : Globals) (d : Device) : Decidable (SanityChecksPass g d) :=
  inferInstanceAs (Decidable (_ ∧ _))

/-- The capture buffer exists with its intended size of
`numBytesPerSample * currentBufferSize` bytes: the buffer size is not
negative, the two factors and their product are in the range of `int`, and,
unless the product is zero, `malloc` satisfies the request. -/
def BufferAllocated (g : Globals) (d : Device) (malloc : Nat → Bool) : Prop :=
  0 ≤ g.currentBufferSize ∧ g.currentBufferSize ≤ INT_MAX ∧
  (d.numBytesPerSample : Int) ≤ INT_MAX ∧
  (d.numBytesPerSample : Int) * g.currentBufferSize ≤ INT_MAX ∧
  (d.numBytesPerSample * g.currentBufferSize.toNat ≠ 0 →
    malloc (d.numBytesPerSample * g.currentBufferSize.toNat) = true)

instance (g : Globals) (d : Device) (malloc : Nat → Bool) :
    Decidable (BufferAllocated g d malloc) :=
  inferInstanceAs (Decidable (_ ∧ _))

/-- Holds the value `true` on the three calls that release the stream and the
device. -/
def Event.isRelease : Event → Bool
  | .deactivateStream | .closeStream | .unmake => true
  | _ => false

/-- The calls made up to the end of the sanity checks when the channel check
and the frequency checks do not throw. -/
def checkCalls (g : Globals) : List Event :=
  [.make, .probe, .getNumChannels, .getFrequencyRange g.currentChannel]

/-- The five exceptions of the sanity checks. -/
def Error.isSanityCheck : Error → Bool
  | .invalidChannel | .frequencyMissing | .frequencyOutOfRange
  | .samplerateMissing | .invalidSampleRate => true
  | _ => false

/-- The run was ended by one of the sanity checks. -/
def Run.Rejected (run : Run) : Prop :=
  ∃ e, e.isSanityCheck = true ∧ run.outcome = .exited EXIT_FAILURE (some e)

/-! ### Inputs used in the evaluations -/

/-- Channel 0, 100 Hz, 2 samples per second, 150 samples per read. -/
def g0 : Globals :=
  { currentChannel := 0, currentFrequencySet := true, currentFrequency := 100,
    currentSampleRateSet := true, currentSampleRate := 2, currentBufferSize := 150 }

/-- Channel 0, 100 Hz, no sample rate supplied. -/
def gNoRate : Globals :=
  { currentChannel := 0, currentFrequencySet := true, currentFrequency := 100 }

/-- One channel with the single range 50 to 200 Hz, 4 bytes per sample,
`activateStream` answers 0. -/
def d0 : Device :=
  { getNumChannels := 1, getFrequencyRange := fun _ => [⟨50, 200⟩],
    listSampleRates := fun _ => [], numBytesPerSample := 4, activateStream := 0 }

/-- As `d0`, with the two ranges 50 to 200 Hz and 300 to 400 Hz. -/
def dTwoRanges : Device :=
  { d0 with getFrequencyRange := fun _ => [⟨50, 200⟩, ⟨300, 400⟩] }

/-- As `d0`, with no frequency range reported. -/
def dNoRange : Device :=
  { d0 with getFrequencyRange := fun _ => [] }

/-- As `d0`, with `activateStream` answering 1. -/
def dActivateOne : Device :=
  { d0 with activateStream := 1 }

/-- As `d0`, with `activateStream` answering -3. -/
def dActivateFails : Device :=
  { d0 with activateStream := -3 }

/-- An allocator that satisfies every request it can be made. -/
def mallocOk : Nat → Bool := fun _ => true

/-- The read results 150, 0, 150, -4, with the exit flag not set. -/
def fourReads : List ReadStep :=
  [⟨150, false⟩, ⟨0, false⟩, ⟨150, false⟩, ⟨-4, false⟩]

/-! ### Lemmas on the frequency loop -/

theorem frequencyLoopThrows_eq_true (f : ℚ) (ranges : List Range) :
    frequencyLoopThrows f ranges = true ↔ ∃ r ∈ ranges, f < r.minimum ∨ f > r.maximum := by
  induction ranges with
  | nil => simp [frequencyLoopThrows]
  | cons r rest ih =>
    by_cases h : f < r.minimum ∨ f > r.maximum
    · simp only [frequencyLoopThrows, if_pos h, true_iff]
      exact ⟨r, List.mem_cons_self _ _, h⟩
    · simp only [frequencyLoopThrows, if_neg h, ih, List.mem_cons]
      constructor
      · rintro ⟨x, hx, hx2⟩; exact ⟨x, Or.inr hx, hx2⟩
      · rintro ⟨x, hx | hx, hx2⟩
        · subst hx; exact absurd hx2 h
        · exact ⟨x, hx, hx2⟩

theorem frequencyLoopThrows_eq_false (f : ℚ) (ranges : List Range) :
    frequencyLoopThrows f ranges = false ↔ ∀ r ∈ ranges, r.minimum ≤ f ∧ f ≤ r.maximum := by
  rw [← Bool.not_eq_true, frequencyLoopThrows_eq_true]
  push_neg
  rfl

/-! ### Lemmas on the buffer -/

theorem toInt_of_range (i : Int) (h0 : 0 ≤ i) (h1 : i ≤ INT_MAX) : toInt i = i := by
  unfold toInt
  unfold INT_MAX at h1
  norm_num at h1 ⊢
  omega

theorem toSizeT_of_range (i : Int) (h0 : 0 ≤ i) (h1 : i ≤ INT_MAX) : toSizeT i = i.toNat := by
  unfold toSizeT
  unfold INT_MAX at h1
  norm_num at h1 ⊢
  congr 1
  omega

/-- When the buffer is allocated as intended it holds
`numBytesPerSample * currentBufferSize` bytes. -/
theorem bufferCapacity_of_allocated (g : Globals) (d : Device) (malloc : Nat → Bool)
    (h : BufferAllocated g d malloc) :
    bufferCapacity malloc d.numBytesPerSample g.currentBufferSize
      = d.numBytesPerSample * g.currentBufferSize.toNat := by
  obtain ⟨h0, _, _, hp, hm⟩ := h
  have hp0 : (0 : Int) ≤ (d.numBytesPerSample : Int) * g.currentBufferSize :=
    mul_nonneg (Int.ofNat_nonneg _) h0
  have hcast : ((d.numBytesPerSample : Int) * g.currentBufferSize).toNat
      = d.numBytesPerSample * g.currentBufferSize.toNat := by
    obtain ⟨m, hm2⟩ := Int.eq_ofNat_of_zero_le h0
    rw [hm2]
    norm_cast
  have hsize : toSizeT (toInt ((d.numBytesPerSample : Int) * g.currentBufferSize))
      = d.numBytesPerSample * g.currentBufferSize.toNat := by
    rw [toInt_of_range _ hp0 hp, toSizeT_of_range _ hp0 hp, hcast]
  have hle : d.numBytesPerSample * g.currentBufferSize.toNat ≤ PTRDIFF_MAX := by
    have h2 : ((d.numBytesPerSample * g.currentBufferSize.toNat : Nat) : Int) ≤ INT_MAX := by
      rw [← hcast, Int.toNat_of_nonneg hp0]; exact hp
    generalize d.numBytesPerSample * g.currentBufferSize.toNat = N at h2
    have h3 : INT_MAX = 2147483647 := by norm_num [INT_MAX]
    have h4 : PTRDIFF_MAX = 9223372036854775807 := by norm_num [PTRDIFF_MAX]
    rw [h3] at h2
    rw [h4]
    omega
  unfold bufferCapacity
  simp only [hsize]
  by_cases hz : d.numBytesPerSample * g.currentBufferSize.toNat = 0
  · simp [hz]
  · simp [hle, hm hz]

/-- A count within the size asked of `readStream` fits an allocated buffer. -/
theorem fits_of_allocated (g : Globals) (d : Device) (malloc : Nat → Bool)
    (h : BufferAllocated g d malloc) (result : Int) (hr : result ≤ g.currentBufferSize) :
    result.toNat * d.numBytesPerSample
      ≤ bufferCapacity malloc d.numBytesPerSample g.currentBufferSize := by
  rw [bufferCapacity_of_allocated g d malloc h, Nat.mul_comm]
  exact Nat.mul_le_mul_left _ (Int.toNat_le_toNat hr)

/-! ### Lemmas on the read loop -/

theorem readLoop_exit (c n b : Nat) (s : ReadStep) (post : List ReadStep)
    (hs : s.signalReceivedDoExit = true) :
    readLoop c n b (s :: post) = ([.readStream n], .exitRequested) := by
  simp [readLoop, hs]

theorem readLoop_thrown (c n b : Nat) (s : ReadStep) (post : List ReadStep)
    (hs : s.signalReceivedDoExit = false) (hneg : s.result < 0) (h4 : s.result ≠ -4) :
    readLoop c n b (s :: post) = ([.readStream n], .thrown s.result) := by
  have h1 : ¬ s.result > 0 := by omega
  have h2 : ¬ s.result = 0 := by omega
  simp [readLoop, hs, h1, h2, h4]

/-- Turns that do not end the loop and whose counts fit the buffer leave the
loop running, with the calls `loopCalls` lists. -/
theorem readLoop_continues (c n b : Nat) (pre : List ReadStep)
    (hpre : ∀ s ∈ pre, s.Continues ∧ (0 < s.result → s.result.toNat * b ≤ c)) :
    readLoop c n b pre = (loopCalls n b pre, .running) := by
  induction pre with
  | nil => simp [loopCalls, readLoop]
  | cons s pre ih =>
    obtain ⟨⟨hflag, hres⟩, hfit⟩ := hpre s (List.mem_cons_self _ _)
    have ih2 := ih (fun x hx => hpre x (List.mem_cons_of_mem _ hx))
    by_cases hpos : s.result > 0
    · simp [readLoop, loopCalls, stepCalls, hflag, hpos, hfit hpos, ih2]
    · by_cases hz : s.result = 0
      · simp [readLoop, loopCalls, stepCalls, hflag, hz, ih2]
      · have h4 : s.result = -4 := by omega
        simp [readLoop, loopCalls, stepCalls, hflag, h4, ih2]

/-- When the loop is still running after some turns, each of them did not
end it and each positive count fitted the buffer. -/
theorem continues_of_running (c n b : Nat) (pre : List ReadStep)
    (hrun : (readLoop c n b pre).2 = .running) :
    ∀ s ∈ pre, s.Continues ∧ (0 < s.result → s.result.toNat * b ≤ c) := by
  induction pre with
  | nil => simp
  | cons s pre ih =>
    unfold readLoop at hrun
    intro x hx
    by_cases hflag : s.signalReceivedDoExit = true
    · simp [hflag] at hrun
    · have hflag2 := (Bool.not_eq_true _).mp hflag
      by_cases hpos : s.result > 0
      · by_cases hfit : s.result.toNat * b ≤ c
        · simp only [hflag2, hpos, hfit, if_true, Bool.false_eq_true, if_false] at hrun
          rcases List.mem_cons.mp hx with rfl | hx
          · exact ⟨⟨hflag2, Or.inl (le_of_lt hpos)⟩, fun _ => hfit⟩
          · exact ih hrun x hx
        · simp [hflag2, hpos, hfit] at hrun
      · by_cases hz : s.result = 0
        · simp only [hflag2, hz, lt_irrefl, gt_iff_lt, if_true, Bool.false_eq_true,
            if_false] at hrun
          rcases List.mem_cons.mp hx with rfl | hx
          · exact ⟨⟨hflag2, Or.inl (le_of_eq hz.symm)⟩, fun h => absurd h (by omega)⟩
          · exact ih hrun x hx
        · by_cases h4 : s.result = -4
          · simp only [hflag2, hpos, hz, h4, if_true, Bool.false_eq_true, if_false] at hrun
            rcases List.mem_cons.mp hx with rfl | hx
            · exact ⟨⟨hflag2, Or.inr h4⟩, fun h => absurd h hpos⟩
            · exact ih (by simpa [h4] using hrun) x hx
          · simp [hflag2, hpos, hz, h4] at hrun

/-- The loop run on turns that leave it running, followed by further turns. -/
theorem readLoop_append (c n b : Nat) (pre rest : List ReadStep)
    (hpre : ∀ s ∈ pre, s.Continues ∧ (0 < s.result → s.result.toNat * b ≤ c)) :
    readLoop c n b (pre ++ rest)
      = (loopCalls n b pre ++ (readLoop c n b rest).1, (readLoop c n b rest).2) := by
  induction pre with
  | nil => simp [loopCalls]
  | cons s pre ih =>
    obtain ⟨⟨hflag, hres⟩, hfit⟩ := hpre s (List.mem_cons_self _ _)
    have ih2 := ih (fun x hx => hpre x (List.mem_cons_of_mem _ hx))
    by_cases hpos : s.result > 0
    · simp [readLoop, loopCalls, stepCalls, hflag, hpos, hfit hpos, ih2]
    · by_cases hz : s.result = 0
      · simp [readLoop, loopCalls, stepCalls, hflag, hz, ih2]
      · have h4 : s.result = -4 := by omega
        simp [readLoop, loopCalls, stepCalls, hflag, h4, ih2]

theorem writes_loopCalls (n b : Nat) (pre : List ReadStep) :
    writes (loopCalls n b pre)
      = (pre.filter fun s => decide (0 < s.result)).map fun s => s.result.toNat * b := by
  induction pre with
  | nil => rfl
  | cons s pre ih =>
    unfold writes at ih ⊢
    by_cases hpos : s.result > 0
    · simp [loopCalls, stepCalls, hpos, ih, List.filterMap_cons]
    · simp [loopCalls, stepCalls, hpos, ih, List.filterMap_cons]

theorem readCount_loopCalls (n b : Nat) (pre : List ReadStep) :
    readCount (loopCalls n b pre) = pre.length := by
  induction pre with
  | nil => rfl
  | cons s pre ih =>
    unfold readCount at ih ⊢
    by_cases hpos : s.result > 0
    · simp [loopCalls, stepCalls, hpos, ih, List.countP_cons, Event.isReadStream]
    · simp [loopCalls, stepCalls, hpos, ih, List.countP_cons, Event.isReadStream]

theorem writes_setupCalls (g : Globals) : writes (setupCalls g) = [] := rfl

theorem readCount_setupCalls (g : Globals) : readCount (setupCalls g) = 0 := rfl

theorem writes_append (s t : List Event) : writes (s ++ t) = writes s ++ writes t := by
  simp [writes, List.filterMap_append]

theorem readCount_append (s t : List Event) : readCount (s ++ t) = readCount s + readCount t := by
  simp [readCount, List.countP_append]

theorem isRelease_loopCalls (n b : Nat) (pre : List ReadStep) :
    ∀ e ∈ loopCalls n b pre, e.isRelease = false := by
  induction pre with
  | nil => simp [loopCalls]
  | cons s pre ih =>
    intro e he
    simp only [loopCalls, List.mem_append] at he
    rcases he with he | he
    · unfold stepCalls at he
      split at he <;> simp at he <;> rcases he with rfl | rfl <;> rfl
    · exact ih e he

theorem isRelease_setupCalls (g : Globals) : ∀ e ∈ setupCalls g, e.isRelease = false := by
  intro e he
  simp [setupCalls, configureCalls] at he
  rcases he with rfl | rfl | rfl | rfl | rfl | rfl | rfl | rfl | rfl <;> rfl

theorem isRelease_readLoop (c n b : Nat) (steps : List ReadStep) :
    ∀ e ∈ (readLoop c n b steps).1, e.isRelease = false := by
  induction steps with
  | nil => simp [readLoop]
  | cons s rest ih =>
    intro e he
    unfold readLoop at he
    split_ifs at he
    all_goals simp only [List.mem_cons, List.mem_singleton, List.not_mem_nil, or_false] at he
    · subst he; rfl
    · rcases he with rfl | rfl | he
      · rfl
      · rfl
      · exact ih e he
    · subst he; rfl
    · rcases he with rfl | he
      · rfl
      · exact ih e he
    · rcases he with rfl | he
      · rfl
      · exact ih e he
    · subst he; rfl

/-- Every turn of the loop starts with a `readStream` call. -/
theorem readLoop_cons_head (c n b : Nat) (s : ReadStep) (rest : List ReadStep) :
    ∃ t, (readLoop c n b (s :: rest)).1 = .readStream n :: t := by
  unfold readLoop
  split_ifs <;> exact ⟨_, rfl⟩

/-! ### Lemmas on `receive` -/

/-- When the sanity checks pass and `activateStream` does not answer a
negative value, `receive` is the read loop between the calls that set the
stream up and, on a requested exit, the calls that release it. -/
theorem receive_of_pass (g : Globals) (d : Device) (malloc : Nat → Bool)
    (steps : List ReadStep) (hv : SanityChecksPass g d) (ha : 0 ≤ d.activateStream) :
    receive g d malloc steps =
      match readLoop (bufferCapacity malloc d.numBytesPerSample g.currentBufferSize)
          (toSizeT g.currentBufferSize) d.numBytesPerSample steps with
      | (t, .thrown result) => caught (setupCalls g ++ t) (.readStreamError result)
      | (t, .exitRequested) =>
        ⟨setupCalls g ++ t ++ [.deactivateStream, .closeStream, .unmake],
          .exited EXIT_SUCCESS none⟩
      | (t, .running) => ⟨setupCalls g ++ t, .running⟩
      | (t, .fault) => ⟨setupCalls g ++ t, .fault⟩ := by
  obtain ⟨h1, h2, h3, h4, h5⟩ := hv
  have h1n : ¬ g.currentChannel ≥ d.getNumChannels := by omega
  have h5n : ¬ g.currentSampleRate ≤ 0 := not_le.mpr h5
  have han : ¬ d.activateStream < 0 := by omega
  simp only [receive, h1n, h2, h3, h4, h5n, han, if_false, Bool.not_true, Bool.false_eq_true,
    setupCalls]
  rfl

theorem receive_invalidChannel (g : Globals) (d : Device) (malloc : Nat → Bool)
    (steps : List ReadStep) (h : d.getNumChannels ≤ g.currentChannel) :
    receive g d malloc steps = caught [.make, .probe, .getNumChannels] .invalidChannel := by
  simp [receive, h]

theorem receive_frequencyMissing (g : Globals) (d : Device) (malloc : Nat → Bool)
    (steps : List ReadStep)
    (h1 : g.currentChannel < d.getNumChannels) (h2 : g.currentFrequencySet = false) :
    receive g d malloc steps = caught [.make, .probe, .getNumChannels] .frequencyMissing := by
  simp [receive, h1, h2]

theorem receive_frequencyOutOfRange (g : Globals) (d : Device) (malloc : Nat → Bool)
    (steps : List ReadStep)
    (h1 : g.currentChannel < d.getNumChannels) (h2 : g.currentFrequencySet = true)
    (h3 : frequencyLoopThrows g.currentFrequency (d.getFrequencyRange g.currentChannel) = true) :
    receive g d malloc steps = caught (checkCalls g) .frequencyOutOfRange := by
  simp [receive, h1, h2, h3, checkCalls]

theorem receive_samplerateMissing (g : Globals) (d : Device) (malloc : Nat → Bool)
    (steps : List ReadStep)
    (h1 : g.currentChannel < d.getNumChannels) (h2 : g.currentFrequencySet = true)
    (h3 : frequencyLoopThrows g.currentFrequency (d.getFrequencyRange g.currentChannel) = false)
    (h4 : g.currentSampleRateSet = false) :
    receive g d malloc steps = caught (checkCalls g) .samplerateMissing := by
  simp [receive, h1, h2, h3, h4, checkCalls]

theorem receive_invalidSampleRate (g : Globals) (d : Device) (malloc : Nat → Bool)
    (steps : List ReadStep)
    (h1 : g.currentChannel < d.getNumChannels) (h2 : g.currentFrequencySet = true)
    (h3 : frequencyLoopThrows g.currentFrequency (d.getFrequencyRange g.currentChannel) = false)
    (h4 : g.currentSampleRateSet = true) (h5 : g.currentSampleRate ≤ 0) :
    receive g d malloc steps = caught (checkCalls g) .invalidSampleRate := by
  simp [receive, h1, h2, h3, h4, h5, checkCalls]

theorem receive_activateStreamError (g : Globals) (d : Device) (malloc : Nat → Bool)
    (steps : List ReadStep) (hv : SanityChecksPass g d) (ha : d.activateStream < 0) :
    receive g d malloc steps
      = caught (setupCalls g) (.activateStreamError d.activateStream) := by
  obtain ⟨h1, h2, h3, h4, h5⟩ := hv
  have h5n : ¬ g.currentSampleRate ≤ 0 := not_le.mpr h5
  simp [receive, h1, h2, h3, h4, h5n, ha, setupCalls]

/-- When a sanity check fails, `receive` is ended by the exception of a
sanity check, having made none of the release calls. -/
theorem receive_of_not_pass (g : Globals) (d : Device) (malloc : Nat → Bool)
    (steps : List ReadStep) (hv : ¬ SanityChecksPass g d) :
    ∃ e t, e.isSanityCheck = true ∧ receive g d malloc steps = caught t e ∧
      ∀ x ∈ t, x ∈ checkCalls g := by
  by_cases h1 : d.getNumChannels ≤ g.currentChannel
  · exact ⟨.invalidChannel, _, rfl, receive_invalidChannel g d malloc steps h1,
      by simp [checkCalls]⟩
  have h1 := not_le.mp h1
  by_cases h2 : g.currentFrequencySet = false
  · exact ⟨.frequencyMissing, _, rfl, receive_frequencyMissing g d malloc steps h1 h2,
      by simp [checkCalls]⟩
  have h2 := (Bool.not_eq_false _).mp h2
  by_cases h3 : frequencyLoopThrows g.currentFrequency (d.getFrequencyRange g.currentChannel)
      = true
  · exact ⟨.frequencyOutOfRange, _, rfl, receive_frequencyOutOfRange g d malloc steps h1 h2 h3,
      fun _ hx => hx⟩
  have h3 := (Bool.not_eq_true _).mp h3
  by_cases h4 : g.currentSampleRateSet = false
  · exact ⟨.samplerateMissing, _, rfl, receive_samplerateMissing g d malloc steps h1 h2 h3 h4,
      fun _ hx => hx⟩
  have h4 := (Bool.not_eq_false _).mp h4
  by_cases h5 : g.currentSampleRate ≤ 0
  · exact ⟨.invalidSampleRate, _, rfl,
      receive_invalidSampleRate g d malloc steps h1 h2 h3 h4 h5, fun _ hx => hx⟩
  exact (hv ⟨h1, h2, h3, h4, not_le.mp h5⟩).elim

/-- A run that is in the read loop passed the sanity checks and the
activation, and its loop is running. -/
theorem pass_of_running (g : Globals) (d : Device) (malloc : Nat → Bool)
    (steps : List ReadStep) (hrun : (receive g d malloc steps).outcome = .running) :
    SanityChecksPass g d ∧ 0 ≤ d.activateStream ∧
    (readLoop (bufferCapacity malloc d.numBytesPerSample g.currentBufferSize)
      (toSizeT g.currentBufferSize) d.numBytesPerSample steps).2 = .running := by
  by_cases hv : SanityChecksPass g d
  · by_cases ha : d.activateStream < 0
    · rw [receive_activateStreamError g d malloc steps hv ha] at hrun
      simp [caught] at hrun
    · refine ⟨hv, not_lt.mp ha, ?_⟩
      rw [receive_of_pass g d malloc steps hv (not_lt.mp ha)] at hrun
      rcases hloop : readLoop (bufferCapacity malloc d.numBytesPerSample g.currentBufferSize)
        (toSizeT g.currentBufferSize) d.numBytesPerSample steps with ⟨t, e2⟩
      rw [hloop] at hrun
      cases e2 <;> simp [caught] at hrun ⊢
  · obtain ⟨e, t, _, heq, _⟩ := receive_of_not_pass g d malloc steps hv
    rw [heq] at hrun
    simp [caught] at hrun

/-- The run of `receive` on turns that leave it in the loop. -/
theorem receive_of_running (g : Globals) (d : Device) (malloc : Nat → Bool)
    (pre : List ReadStep) (hrun : (receive g d malloc pre).outcome = .running) :
    receive g d malloc pre
      = ⟨setupCalls g ++ loopCalls (toSizeT g.currentBufferSize) d.numBytesPerSample pre,
          .running⟩ := by
  obtain ⟨hv, ha, hloop⟩ := pass_of_running g d malloc pre hrun
  rw [receive_of_pass g d malloc pre hv ha,
    readLoop_continues _ _ _ pre (continues_of_running _ _ _ pre hloop)]

/-- The run of `receive` when a turn with the exit flag set follows turns
that leave it in the loop. -/
theorem receive_exit (g : Globals) (d : Device) (malloc : Nat → Bool)
    (pre post : List ReadStep) (hrun : (receive g d malloc pre).outcome = .running)
    (r : Int) :
    receive g d malloc (pre ++ ⟨r, true⟩ :: post)
      = ⟨setupCalls g ++ loopCalls (toSizeT g.currentBufferSize) d.numBytesPerSample pre
            ++ [.readStream (toSizeT g.currentBufferSize), .deactivateStream, .closeStream,
                .unmake],
          .exited EXIT_SUCCESS none⟩ := by
  obtain ⟨hv, ha, hloop⟩ := pass_of_running g d malloc pre hrun
  rw [receive_of_pass g d malloc _ hv ha,
    readLoop_append _ _ _ pre _ (continues_of_running _ _ _ pre hloop),
    readLoop_exit _ _ _ ⟨r, true⟩ post rfl]
  simp

/-- The run of `receive` when a fatal result follows turns that leave it in
the loop. -/
theorem receive_thrown (g : Globals) (d : Device) (malloc : Nat → Bool)
    (pre post : List ReadStep) (hrun : (receive g d malloc pre).outcome = .running)
    (r : Int) (hneg : r < 0) (h4 : r ≠ -4) :
    receive g d malloc (pre ++ ⟨r, false⟩ :: post)
      = caught (setupCalls g ++ loopCalls (toSizeT g.currentBufferSize) d.numBytesPerSample pre
            ++ [.readStream (toSizeT g.currentBufferSize)]) (.readStreamError r) := by
  obtain ⟨hv, ha, hloop⟩ := pass_of_running g d malloc pre hrun
  rw [receive_of_pass g d malloc _ hv ha,
    readLoop_append _ _ _ pre _ (continues_of_running _ _ _ pre hloop),
    readLoop_thrown _ _ _ ⟨r, false⟩ post rfl hneg h4]
  simp

/-- The run of `receive` when the sanity checks and the activation pass, the
buffer is allocated and the turns do not end the loop and stay within the
size asked of `readStream`: it is in the loop. -/
theorem receive_continues (g : Globals) (d : Device) (malloc : Nat → Bool)
    (hv : SanityChecksPass g d) (ha : 0 ≤ d.activateStream)
    (hb : BufferAllocated g d malloc) (pre : List ReadStep)
    (hpre : ∀ s ∈ pre, s.Continues ∧ s.result ≤ g.currentBufferSize) :
    receive g d malloc pre
      = ⟨setupCalls g ++ loopCalls (toSizeT g.currentBufferSize) d.numBytesPerSample pre,
          .running⟩ := by
  rw [receive_of_pass g d malloc pre hv ha, readLoop_continues _ _ _ pre
    (fun s hs => ⟨(hpre s hs).1, fun _ => fits_of_allocated g d malloc hb _ (hpre s hs).2⟩)]

/-- The device is released on one path only: `unmake` is in the trace exactly
when `receive` returns `EXIT_SUCCESS`. -/
theorem unmake_mem_trace_iff (g : Globals) (d : Device) (malloc : Nat → Bool)
    (steps : List ReadStep) :
    Event.unmake ∈ (receive g d malloc steps).trace
      ↔ (receive g d malloc steps).outcome = .exited EXIT_SUCCESS none := by
  by_cases hv : SanityChecksPass g d
  · have hs : Event.unmake ∉ setupCalls g := fun h => by
      simpa [Event.isRelease] using isRelease_setupCalls g _ h
    by_cases ha : d.activateStream < 0
    · rw [receive_activateStreamError g d malloc steps hv ha]
      simp [caught, hs, EXIT_SUCCESS, EXIT_FAILURE]
    · rw [receive_of_pass g d malloc steps hv (not_lt.mp ha)]
      have hl : Event.unmake ∉
          (readLoop (bufferCapacity malloc d.numBytesPerSample g.currentBufferSize)
            (toSizeT g.currentBufferSize) d.numBytesPerSample steps).1 :=
        fun h => by simpa [Event.isRelease] using isRelease_readLoop _ _ _ steps _ h
      rcases hloop : readLoop (bufferCapacity malloc d.numBytesPerSample g.currentBufferSize)
        (toSizeT g.currentBufferSize) d.numBytesPerSample steps with ⟨t, e2⟩
      rw [hloop] at hl
      cases e2 <;> simp_all [caught, EXIT_SUCCESS, EXIT_FAILURE]
  · obtain ⟨e, t, _, heq, ht⟩ := receive_of_not_pass g d malloc steps hv
    rw [heq]
    have : Event.unmake ∉ t := fun h => by
      have := ht _ h
      simp [checkCalls] at this
    simp [caught, this, EXIT_SUCCESS, EXIT_FAILURE]

/-- When the device reports at least one range and none of the reported
ranges holds the frequency, the frequency check throws. -/
theorem receive_frequency_in_no_range (g : Globals) (d : Device) (malloc : Nat → Bool)
    (steps : List ReadStep)
    (h1 : g.currentChannel < d.getNumChannels) (h2 : g.currentFrequencySet = true)
    (hne : d.getFrequencyRange g.currentChannel ≠ [])
    (hout : ∀ r ∈ d.getFrequencyRange g.currentChannel,
      ¬ (r.minimum ≤ g.currentFrequency ∧ g.currentFrequency ≤ r.maximum)) :
    receive g d malloc steps = caught (checkCalls g) .frequencyOutOfRange := by
  apply receive_frequencyOutOfRange g d malloc steps h1 h2
  rw [frequencyLoopThrows_eq_true]
  obtain ⟨r, hr⟩ := List.exists_mem_of_ne_nil _ hne
  refine ⟨r, hr, ?_⟩
  have h := hout r hr
  by_contra hcon
  push_neg at hcon
  exact h ⟨hcon.1, hcon.2⟩

/-- A run whose sanity checks pass is not ended by a sanity check. -/
theorem not_rejected_of_pass (g : Globals) (d : Device) (malloc : Nat → Bool)
    (steps : List ReadStep) (hv : SanityChecksPass g d) :
    ¬ (receive g d malloc steps).Rejected := by
  rintro ⟨e, he, hout⟩
  by_cases ha : d.activateStream < 0
  · rw [receive_activateStreamError g d malloc steps hv ha] at hout
    simp only [caught, Outcome.exited.injEq, Option.some.injEq, true_and] at hout
    subst hout
    simp [Error.isSanityCheck] at he
  · rw [receive_of_pass g d malloc steps hv (not_lt.mp ha)] at hout
    rcases hloop : readLoop (bufferCapacity malloc d.numBytesPerSample g.currentBufferSize)
      (toSizeT g.currentBufferSize) d.numBytesPerSample steps with ⟨t, e2⟩
    rw [hloop] at hout
    cases e2 with
    | exitRequested => simp [EXIT_SUCCESS, EXIT_FAILURE] at hout
    | thrown r =>
      simp only [caught, Outcome.exited.injEq, Option.some.injEq, true_and] at hout
      subst hout
      simp [Error.isSanityCheck] at he
    | running => simp at hout
    | fault => simp at hout

/-- The order of the sanity checks as the code has them, the third being the
test of the code: the frequency is outside one of the reported ranges. -/
theorem sanity_checks_of_code (g : Globals) (d : Device) (malloc : Nat → Bool)
    (steps : List ReadStep) :
    (d.getNumChannels ≤ g.currentChannel →
      (receive g d malloc steps).outcome = .exited EXIT_FAILURE (some .invalidChannel)) ∧
    (g.currentChannel < d.getNumChannels → g.currentFrequencySet = false →
      (receive g d malloc steps).outcome = .exited EXIT_FAILURE (some .frequencyMissing)) ∧
    (g.currentChannel < d.getNumChannels → g.currentFrequencySet = true →
      (∃ r ∈ d.getFrequencyRange g.currentChannel,
        g.currentFrequency < r.minimum ∨ g.currentFrequency > r.maximum) →
      (receive g d malloc steps).outcome
        = .exited EXIT_FAILURE (some .frequencyOutOfRange)) ∧
    (g.currentChannel < d.getNumChannels → g.currentFrequencySet = true →
      (∀ r ∈ d.getFrequencyRange g.currentChannel,
        r.minimum ≤ g.currentFrequency ∧ g.currentFrequency ≤ r.maximum) →
      g.currentSampleRateSet = false →
      (receive g d malloc steps).outcome = .exited EXIT_FAILURE (some .samplerateMissing)) ∧
    (g.currentChannel < d.getNumChannels → g.currentFrequencySet = true →
      (∀ r ∈ d.getFrequencyRange g.currentChannel,
        r.minimum ≤ g.currentFrequency ∧ g.currentFrequency ≤ r.maximum) →
      g.currentSampleRateSet = true → g.currentSampleRate ≤ 0 →
      (receive g d malloc steps).outcome = .exited EXIT_FAILURE (some .invalidSampleRate)) ∧
    (¬ (receive g d malloc steps).Rejected ↔
      g.currentChannel < d.getNumChannels ∧ g.currentFrequencySet = true ∧
      (∀ r ∈ d.getFrequencyRange g.currentChannel,
        r.minimum ≤ g.currentFrequency ∧ g.currentFrequency ≤ r.maximum) ∧
      g.currentSampleRateSet = true ∧ 0 < g.currentSampleRate) := by
  refine ⟨fun h => ?_, fun h1 h2 => ?_, fun h1 h2 h3 => ?_, fun h1 h2 h3 h4 => ?_,
    fun h1 h2 h3 h4 h5 => ?_, ⟨?_, ?_⟩⟩
  · rw [receive_invalidChannel g d malloc steps h]; rfl
  · rw [receive_frequencyMissing g d malloc steps h1 h2]; rfl
  · rw [receive_frequencyOutOfRange g d malloc steps h1 h2
      ((frequencyLoopThrows_eq_true _ _).mpr h3)]
    rfl
  · rw [receive_samplerateMissing g d malloc steps h1 h2
      ((frequencyLoopThrows_eq_false _ _).mpr h3) h4]
    rfl
  · rw [receive_invalidSampleRate g d malloc steps h1 h2
      ((frequencyLoopThrows_eq_false _ _).mpr h3) h4 h5]
    rfl
  · intro hnr
    by_contra hcon
    apply hnr
    have hv : ¬ SanityChecksPass g d := fun ⟨h1, h2, h3, h4, h5⟩ =>
      hcon ⟨h1, h2, (frequencyLoopThrows_eq_false _ _).mp h3, h4, h5⟩
    obtain ⟨e, t, he, heq, _⟩ := receive_of_not_pass g d malloc steps hv
    exact ⟨e, he, by rw [heq]; rfl⟩
  · rintro ⟨h1, h2, h3, h4, h5⟩
    exact not_rejected_of_pass g d malloc steps
      ⟨h1, h2, (frequencyLoopThrows_eq_false _ _).mpr h3, h4, h5⟩

/-- On a device that reports exactly one frequency range the sanity checks of
the code reject as the rules of the specification say, and pass when they
pass. -/
theorem receive_agrees_with_spec_of_one_range (g : Globals) (d : Device)
    (malloc : Nat → Bool) (steps : List ReadStep) (r : Range)
    (hr : d.getFrequencyRange g.currentChannel = [r]) :
    (∀ e, specValidate g d = some e →
      (receive g d malloc steps).outcome = .exited EXIT_FAILURE (some e)) ∧
    (specValidate g d = none → ¬ (receive g d malloc steps).Rejected) := by
  have hloop : frequencyLoopThrows g.currentFrequency (d.getFrequencyRange g.currentChannel)
      = !((d.getFrequencyRange g.currentChannel).any fun r =>
        decide (r.minimum ≤ g.currentFrequency ∧ g.currentFrequency ≤ r.maximum)) := by
    rw [hr]
    by_cases h : g.currentFrequency < r.minimum ∨ g.currentFrequency > r.maximum
    · have h2 : ¬ (r.minimum ≤ g.currentFrequency ∧ g.currentFrequency ≤ r.maximum) := by
        rintro ⟨ha, hb⟩
        rcases h with h | h
        · exact absurd ha (not_le.mpr h)
        · exact absurd hb (not_le.mpr h)
      simp [frequencyLoopThrows, h, h2]
    · have h2 : r.minimum ≤ g.currentFrequency ∧ g.currentFrequency ≤ r.maximum := by
        push_neg at h
        exact h
      simp [frequencyLoopThrows, h, h2]
  by_cases h1 : d.getNumChannels ≤ g.currentChannel
  · have := receive_invalidChannel g d malloc steps h1
    simp [specValidate, h1, this, caught, Run.Rejected]
  have h1 := not_le.mp h1
  have h1n : ¬ d.getNumChannels ≤ g.currentChannel := not_le.mpr h1
  by_cases h2 : g.currentFrequencySet = false
  · have := receive_frequencyMissing g d malloc steps h1 h2
    simp [specValidate, h1n, h2, this, caught, Run.Rejected]
  have h2 := (Bool.not_eq_false _).mp h2
  by_cases h3 : frequencyLoopThrows g.currentFrequency (d.getFrequencyRange g.currentChannel)
      = true
  · have := receive_frequencyOutOfRange g d malloc steps h1 h2 h3
    rw [hloop] at h3
    simp only [Bool.not_eq_true', ← Bool.not_eq_true] at h3
    simp only [specValidate, ge_iff_le, h1n, if_false, h2, Bool.not_true, Bool.false_eq_true,
      this, caught]
    rw [if_pos (by simpa using h3)]
    simp
  have h3 := (Bool.not_eq_true _).mp h3
  have h3s : ((d.getFrequencyRange g.currentChannel).any fun r =>
      decide (r.minimum ≤ g.currentFrequency ∧ g.currentFrequency ≤ r.maximum)) = true := by
    rw [hloop] at h3
    simpa using h3
  by_cases h4 : g.currentSampleRateSet = false
  · have := receive_samplerateMissing g d malloc steps h1 h2 h3 h4
    simp only [specValidate, ge_iff_le, h1n, if_false, h2, Bool.not_true, Bool.false_eq_true,
      h3s, h4, this, caught]
    simp
  have h4 := (Bool.not_eq_false _).mp h4
  by_cases h5 : g.currentSampleRate ≤ 0
  · have := receive_invalidSampleRate g d malloc steps h1 h2 h3 h4 h5
    simp only [specValidate, ge_iff_le, h1n, if_false, h2, Bool.not_true, Bool.false_eq_true,
      h3s, h4, h5, this, caught]
    simp
  have hv : SanityChecksPass g d := ⟨h1, h2, h3, h4, not_le.mp h5⟩
  simp only [specValidate, ge_iff_le, h1n, if_false, h2, Bool.not_true, Bool.false_eq_true,
    h3s, h4, h5]
  simp only [reduceCtorEq, false_implies, implies_true, true_and]
  exact fun _ => not_rejected_of_pass g d malloc steps hv

/-- The read loop with a buffer that was not allocated.  With 4 bytes per
sample the buffer sizes 536870912 and -1 give a product that, as an `int`
converted to `size_t`, is above `PTRDIFF_MAX`: the buffer is `NULL`, and the
first positive count ends the run at `fwrite`. -/
theorem receive_fault_without_buffer :
    bufferCapacity mallocOk 4 536870912 = 0 ∧ bufferCapacity mallocOk 4 (-1) = 0 ∧
    receive { g0 with currentBufferSize := 536870912 } d0 mallocOk [⟨150, false⟩, ⟨0, true⟩]
      = ⟨setupCalls g0 ++ [.readStream 536870912], .fault⟩ ∧
    receive { g0 with currentBufferSize := -1 } d0 mallocOk [⟨150, false⟩, ⟨0, true⟩]
      = ⟨setupCalls g0 ++ [.readStream 18446744073709551615], .fault⟩ := by
  decide

/-! ### The read loop -/

/-- C1. Classification of the read results.  Let the sanity checks pass and
`activateStream` answer a value that is not negative, let the capture buffer
of `numBytesPerSample * currentBufferSize` bytes be allocated, and let `pre`
be turns of the read loop with the exit flag not set whose results are the
overflow code `-4` or counts, none above the `currentBufferSize` samples
asked of `readStream`.  Then after `pre` the program is still in the loop
with no error, it has made one `readStream` call for each turn, and its
writes are, in order, one write of `n * numBytesPerSample` bytes for each
positive result `n` and nothing else.  When a negative result `r` other than
`-4` follows, `receive` returns `EXIT_FAILURE` with the exception
`readStream error r`, after that one more read and no further write, whatever
the turns recorded after it. -/
theorem receive_read_loop_classification (g : Globals) (d : Device) (malloc : Nat → Bool)
    (hv : SanityChecksPass g d) (ha : 0 ≤ d.activateStream)
    (hb : BufferAllocated g d malloc)
    (pre post : List ReadStep)
    (hpre : ∀ s ∈ pre, s.Continues ∧ s.result ≤ g.currentBufferSize) :
    ((receive g d malloc pre).outcome = .running ∧
      writes (receive g d malloc pre).trace
        = ((pre.filter fun s => decide (0 < s.result)).map
            fun s => s.result.toNat * d.numBytesPerSample) ∧
      readCount (receive g d malloc pre).trace = pre.length) ∧
    ∀ r : Int, r < 0 → r ≠ -4 →
      (receive g d malloc (pre ++ ⟨r, false⟩ :: post)).outcome
        = .exited EXIT_FAILURE (some (.readStreamError r)) ∧
      (Error.readStreamError r).what = "readStream error " ++ toString r ∧
      writes (receive g d malloc (pre ++ ⟨r, false⟩ :: post)).trace
        = ((pre.filter fun s => decide (0 < s.result)).map
            fun s => s.result.toNat * d.numBytesPerSample) ∧
      readCount (receive g d malloc (pre ++ ⟨r, false⟩ :: post)).trace = pre.length + 1 := by
  have hc := receive_continues g d malloc hv ha hb pre hpre
  have hrun : (receive g d malloc pre).outcome = .running := by rw [hc]
  refine ⟨?_, ?_⟩
  · rw [hc]
    refine ⟨rfl, ?_, ?_⟩
    · simp only [writes_append, writes_setupCalls, writes_loopCalls, List.nil_append]
    · simp only [readCount_append, readCount_setupCalls, readCount_loopCalls, Nat.zero_add]
  · intro r hneg h4
    rw [receive_thrown g d malloc pre post hrun r hneg h4]
    refine ⟨rfl, rfl, ?_, ?_⟩
    · simp only [caught, writes_append, writes_setupCalls, writes_loopCalls, List.nil_append]
      simp [writes]
    · simp only [caught, readCount_append, readCount_setupCalls, readCount_loopCalls,
        Nat.zero_add]
      simp [readCount, Event.isReadStream]

/-- C1, evaluated: the results 150, 0, 150, -4, -7 with 150 samples per read
and 4 bytes per sample give two writes of 600 bytes each, five reads, and
`EXIT_FAILURE` with the exception text `readStream error -7`. -/
theorem receive_read_loop_classification_witness :
    SanityChecksPass g0 d0 ∧ BufferAllocated g0 d0 mallocOk ∧
    writes (receive g0 d0 mallocOk (fourReads ++ [⟨-7, false⟩])).trace = [600, 600] ∧
    readCount (receive g0 d0 mallocOk (fourReads ++ [⟨-7, false⟩])).trace = 5 ∧
    (receive g0 d0 mallocOk (fourReads ++ [⟨-7, false⟩])).outcome
      = .exited EXIT_FAILURE (some (.readStreamError (-7))) ∧
    (Error.readStreamError (-7)).what = "readStream error -7" :=
  have h := (receive_read_loop_classification g0 d0 mallocOk (by decide) (by decide)
    (by decide) fourReads [] (by decide)).2 (-7) (by decide) (by decide)
  ⟨by decide, by decide, h.2.2.1.trans (by decide), h.2.2.2.trans (by decide), h.1,
    h.2.1.trans (by decide)⟩

/-- C6. Exit on request.  Let the program be in the read loop after the turns
`pre` (by `receive_continues` it is when the sanity checks and the activation
pass, the buffer is allocated and the turns do not end the loop), and let the
exit flag be set when the next `readStream` call returns.
Then `receive` returns `EXIT_SUCCESS` with no exception; that call is the
last `readStream` call, whatever turns are recorded after it; and the trace
ends with `deactivateStream`, `closeStream`, `unmake`, in that order, none of
which is called before. -/
theorem receive_exit_requested (g : Globals) (d : Device) (malloc : Nat → Bool)
    (pre post : List ReadStep) (hrun : (receive g d malloc pre).outcome = .running)
    (r : Int) :
    (receive g d malloc (pre ++ ⟨r, true⟩ :: post)).outcome = .exited EXIT_SUCCESS none ∧
    readCount (receive g d malloc (pre ++ ⟨r, true⟩ :: post)).trace = pre.length + 1 ∧
    ∃ t, (receive g d malloc (pre ++ ⟨r, true⟩ :: post)).trace
          = t ++ [.readStream (toSizeT g.currentBufferSize), .deactivateStream, .closeStream,
                  .unmake] ∧
      t = (receive g d malloc pre).trace ∧
      readCount t = pre.length ∧ ∀ e ∈ t, e.isRelease = false := by
  rw [receive_exit g d malloc pre post hrun r, receive_of_running g d malloc pre hrun]
  refine ⟨rfl, ?_, _, rfl, rfl, ?_, ?_⟩
  · simp only [readCount_append, readCount_setupCalls, readCount_loopCalls, Nat.zero_add]
    simp [readCount, Event.isReadStream]
  · simp only [readCount_append, readCount_setupCalls, readCount_loopCalls, Nat.zero_add]
  · intro e he
    rcases List.mem_append.mp he with he | he
    · exact isRelease_setupCalls g e he
    · exact isRelease_loopCalls _ _ pre e he

/-- C6, evaluated: the exit flag is set when the third read returns; more
turns are recorded after it.  Three reads are made, the status is
`EXIT_SUCCESS`, and the trace ends with the three release calls. -/
theorem receive_exit_requested_witness :
    (receive g0 d0 mallocOk [⟨150, false⟩, ⟨-4, false⟩]).outcome = .running ∧
    (receive g0 d0 mallocOk
      ([⟨150, false⟩, ⟨-4, false⟩] ++ ⟨0, true⟩ :: [⟨150, false⟩])).outcome
      = .exited EXIT_SUCCESS none ∧
    readCount (receive g0 d0 mallocOk
      ([⟨150, false⟩, ⟨-4, false⟩] ++ ⟨0, true⟩ :: [⟨150, false⟩])).trace = 3 ∧
    (receive g0 d0 mallocOk
      ([⟨150, false⟩, ⟨-4, false⟩] ++ ⟨0, true⟩ :: [⟨150, false⟩])).trace
      = setupCalls g0 ++ [.readStream 150, .fwrite 150 4, .readStream 150, .readStream 150,
          .deactivateStream, .closeStream, .unmake] :=
  have h := receive_exit_requested g0 d0 mallocOk
    [⟨150, false⟩, ⟨-4, false⟩] [⟨150, false⟩] (by decide) 0
  ⟨by decide, h.1, h.2.1, by decide⟩

/-- C10. The read that returns while the exit flag is set is discarded.  Let
the program be in the read loop after the turns `pre` (by `receive_continues`
it is when the sanity checks and the activation pass, the buffer is allocated
and the turns do not end the loop), and let the next `readStream` call return
`r` with the exit flag set.  Then the run is the run
in which that call returned `0`, and the one in which no turn is recorded
after it: the writes are those of the earlier turns only, so a positive `r`
writes nothing, and the status is `EXIT_SUCCESS` with no exception, also for
a negative `r` other than `-4`. -/
theorem receive_last_read_discarded (g : Globals) (d : Device) (malloc : Nat → Bool)
    (pre post : List ReadStep) (hrun : (receive g d malloc pre).outcome = .running)
    (r : Int) :
    receive g d malloc (pre ++ ⟨r, true⟩ :: post) = receive g d malloc (pre ++ [⟨0, true⟩]) ∧
    writes (receive g d malloc (pre ++ ⟨r, true⟩ :: post)).trace
      = writes (receive g d malloc pre).trace ∧
    writes (receive g d malloc (pre ++ ⟨r, true⟩ :: post)).trace
      = ((pre.filter fun s => decide (0 < s.result)).map
          fun s => s.result.toNat * d.numBytesPerSample) ∧
    (∀ e, (receive g d malloc (pre ++ ⟨r, true⟩ :: post)).outcome ≠ .exited EXIT_FAILURE e) ∧
    (receive g d malloc (pre ++ ⟨r, true⟩ :: post)).outcome = .exited EXIT_SUCCESS none := by
  have hw : writes (receive g d malloc (pre ++ ⟨r, true⟩ :: post)).trace
      = ((pre.filter fun s => decide (0 < s.result)).map
          fun s => s.result.toNat * d.numBytesPerSample) := by
    rw [receive_exit g d malloc pre post hrun r]
    simp only [writes_append, writes_setupCalls, writes_loopCalls, List.nil_append]
    simp [writes]
  refine ⟨?_, ?_, hw, ?_, ?_⟩
  · rw [receive_exit g d malloc pre post hrun r, receive_exit g d malloc pre [] hrun 0]
  · rw [hw, receive_of_running g d malloc pre hrun]
    simp only [writes_append, writes_setupCalls, writes_loopCalls, List.nil_append]
  · intro e
    rw [receive_exit g d malloc pre post hrun r]
    simp [EXIT_SUCCESS, EXIT_FAILURE]
  · rw [receive_exit g d malloc pre post hrun r]

/-- C10, evaluated: after one read of 150 samples, a read that returns 150
with the exit flag set writes nothing (one write of 600 bytes in all), and a
read that returns -7 with the exit flag set gives `EXIT_SUCCESS`. -/
theorem receive_last_read_discarded_witness :
    (receive g0 d0 mallocOk [⟨150, false⟩]).outcome = .running ∧
    writes (receive g0 d0 mallocOk ([⟨150, false⟩] ++ ⟨150, true⟩ :: [])).trace = [600] ∧
    (receive g0 d0 mallocOk ([⟨150, false⟩] ++ ⟨-7, true⟩ :: [])).outcome
      = .exited EXIT_SUCCESS none :=
  ⟨by decide,
    (receive_last_read_discarded g0 d0 mallocOk [⟨150, false⟩] []
      (by decide) 150).2.2.1.trans (by decide),
    (receive_last_read_discarded g0 d0 mallocOk [⟨150, false⟩] []
      (by decide) (-7)).2.2.2.2⟩

/-! ### The sanity checks -/

/-- C5. Channel check.  When the requested channel is not below the number of
receive channels of the device, whatever the other variables are, `receive`
returns `EXIT_FAILURE` with the exception `invalid channel`, having called
only `make`, the probe and `getNumChannels`: `setSampleRate`, `setFrequency`,
`setupStream` and `activateStream` are not called. -/
theorem receive_channel_rejected (g : Globals) (d : Device) (malloc : Nat → Bool)
    (steps : List ReadStep) (h : d.getNumChannels ≤ g.currentChannel) :
    (receive g d malloc steps).outcome = .exited EXIT_FAILURE (some .invalidChannel) ∧
    Error.invalidChannel.what = "invalid channel" ∧
    (receive g d malloc steps).trace = [.make, .probe, .getNumChannels] ∧
    (∀ c, Event.setupStream c ∉ (receive g d malloc steps).trace) ∧
    Event.activateStream ∉ (receive g d malloc steps).trace ∧
    (∀ c r, Event.setSampleRate c r ∉ (receive g d malloc steps).trace) ∧
    (∀ c f, Event.setFrequency c f ∉ (receive g d malloc steps).trace) := by
  rw [receive_invalidChannel g d malloc steps h]
  simp [caught, Error.what]

/-- C5, evaluated: channel 1 on a device with one receive channel. -/
theorem receive_channel_rejected_witness :
    d0.getNumChannels ≤ ({ g0 with currentChannel := 1 } : Globals).currentChannel ∧
    (receive { g0 with currentChannel := 1 } d0 mallocOk fourReads).outcome
      = .exited EXIT_FAILURE (some .invalidChannel) ∧
    (receive { g0 with currentChannel := 1 } d0 mallocOk fourReads).trace
      = [.make, .probe, .getNumChannels] :=
  have h := receive_channel_rejected { g0 with currentChannel := 1 } d0 mallocOk fourReads
    (by decide)
  ⟨by decide, h.1, h.2.2.1⟩

/-! ### Activation -/

/-- C7, as the code has it.  Let the sanity checks pass.  When `activateStream`
answers a negative value `r`, `receive` returns `EXIT_FAILURE` with the
exception `activateStream error r` and `readStream` is not called.  When it
answers zero or a positive value, no activation error is raised and the read
loop is entered: with a turn of the loop recorded, `readStream` is called. -/
theorem receive_activation_negative (g : Globals) (d : Device) (malloc : Nat → Bool)
    (steps : List ReadStep) (hv : SanityChecksPass g d) :
    (d.activateStream < 0 →
      (receive g d malloc steps).outcome
        = .exited EXIT_FAILURE (some (.activateStreamError d.activateStream)) ∧
      (Error.activateStreamError d.activateStream).what
        = "activateStream error " ++ toString d.activateStream ∧
      readCount (receive g d malloc steps).trace = 0) ∧
    (0 ≤ d.activateStream →
      (∀ r, (receive g d malloc steps).outcome
        ≠ .exited EXIT_FAILURE (some (.activateStreamError r))) ∧
      (steps ≠ [] → 1 ≤ readCount (receive g d malloc steps).trace)) := by
  refine ⟨fun ha => ?_, fun ha => ?_⟩
  · rw [receive_activateStreamError g d malloc steps hv ha]
    exact ⟨rfl, rfl, readCount_setupCalls g⟩
  · rw [receive_of_pass g d malloc steps hv ha]
    cases steps with
    | nil => simp [readLoop]
    | cons s rest =>
      obtain ⟨t, ht⟩ := readLoop_cons_head
        (bufferCapacity malloc d.numBytesPerSample g.currentBufferSize)
        (toSizeT g.currentBufferSize) d.numBytesPerSample s rest
      rcases hloop : readLoop (bufferCapacity malloc d.numBytesPerSample g.currentBufferSize)
        (toSizeT g.currentBufferSize) d.numBytesPerSample (s :: rest) with ⟨t2, e2⟩
      rw [hloop] at ht
      simp only at ht
      subst ht
      cases e2 <;>
        simp [caught, EXIT_SUCCESS, EXIT_FAILURE, readCount_append, readCount,
          Event.isReadStream] <;> omega

/-- C7, evaluated: `activateStream` answers -3. -/
theorem receive_activation_negative_witness :
    SanityChecksPass g0 dActivateFails ∧
    (receive g0 dActivateFails mallocOk fourReads).outcome
      = .exited EXIT_FAILURE (some (.activateStreamError (-3))) ∧
    readCount (receive g0 dActivateFails mallocOk fourReads).trace = 0 :=
  have h := (receive_activation_negative g0 dActivateFails mallocOk fourReads
    (by decide)).1 (by decide)
  ⟨by decide, h.1, h.2.2⟩

/-- C7 fails for a positive answer: when `activateStream` answers 1 the read
loop is entered, two reads and a write of 600 bytes are made, and `receive`
returns `EXIT_SUCCESS`. -/
theorem receive_activation_positive_enters_loop :
    dActivateOne.activateStream ≠ 0 ∧
    SanityChecksPass g0 dActivateOne ∧
    receive g0 dActivateOne mallocOk [⟨150, false⟩, ⟨0, true⟩]
      = ⟨setupCalls g0 ++ [.readStream 150, .fwrite 150 4, .readStream 150,
            .deactivateStream, .closeStream, .unmake],
          .exited EXIT_SUCCESS none⟩ ∧
    readCount (receive g0 dActivateOne mallocOk [⟨150, false⟩, ⟨0, true⟩]).trace = 2 := by
  decide

/-! ### Evaluations where the code departs from the specification -/

/-- C2, evaluated on the three ways `receive` fails.  With channel 1 on a
device with one channel, with `activateStream` answering -3, and with the
read results 150, 0, 150, -4, -7, `receive` returns `EXIT_FAILURE` and the
trace holds `make` and no `unmake`; in the last two the stream was set up and
neither `deactivateStream` nor `closeStream` is called. -/
theorem receive_failure_skips_release :
    ((receive { g0 with currentChannel := 1 } d0 mallocOk []).outcome
        = .exited EXIT_FAILURE (some .invalidChannel) ∧
      Event.make ∈ (receive { g0 with currentChannel := 1 } d0 mallocOk []).trace ∧
      Event.unmake ∉ (receive { g0 with currentChannel := 1 } d0 mallocOk []).trace) ∧
    ((receive g0 dActivateFails mallocOk []).outcome
        = .exited EXIT_FAILURE (some (.activateStreamError (-3))) ∧
      Event.setupStream 0 ∈ (receive g0 dActivateFails mallocOk []).trace ∧
      ∀ e ∈ (receive g0 dActivateFails mallocOk []).trace, e.isRelease = false) ∧
    ((receive g0 d0 mallocOk (fourReads ++ [⟨-7, false⟩])).outcome
        = .exited EXIT_FAILURE (some (.readStreamError (-7))) ∧
      receive g0 d0 mallocOk (fourReads ++ [⟨-7, false⟩])
        = caught (setupCalls g0 ++ [.readStream 150, .fwrite 150 4, .readStream 150,
            .readStream 150, .fwrite 150 4, .readStream 150, .readStream 150])
            (.readStreamError (-7)) ∧
      ∀ e ∈ (receive g0 d0 mallocOk (fourReads ++ [⟨-7, false⟩])).trace,
        e.isRelease = false) := by
  decide

/-- C3, evaluated.  The device reports the ranges 50 to 200 Hz and 300 to
400 Hz.  The frequency 100 Hz lies within the first, and so do 50 Hz and
200 Hz, its bounds; the channel is valid and the sample rate 2 is supplied.
`receive` returns `EXIT_FAILURE` with `frequency out of range` and the device
is not configured. -/
theorem receive_rejects_frequency_in_one_range :
    ((50 : ℚ) ≤ g0.currentFrequency ∧ g0.currentFrequency ≤ 200) ∧
    receive g0 dTwoRanges mallocOk [] = caught (checkCalls g0) .frequencyOutOfRange ∧
    receive { g0 with currentFrequency := 50 } dTwoRanges mallocOk []
      = caught (checkCalls g0) .frequencyOutOfRange ∧
    receive { g0 with currentFrequency := 200 } dTwoRanges mallocOk []
      = caught (checkCalls g0) .frequencyOutOfRange := by
  decide

/-- C4, evaluated.  The device reports no frequency range, so no range holds
the frequency 100 Hz.  No sanity check rejects: the device is configured, the
stream is opened and read, and `receive` returns `EXIT_SUCCESS` when the exit
flag is set. -/
theorem receive_accepts_frequency_without_range :
    dNoRange.getFrequencyRange g0.currentChannel = [] ∧
    receive g0 dNoRange mallocOk [⟨150, false⟩, ⟨0, true⟩]
      = ⟨checkCalls g0 ++ configureCalls g0 ++ [.readStream 150, .fwrite 150 4,
            .readStream 150, .deactivateStream, .closeStream, .unmake],
          .exited EXIT_SUCCESS none⟩ := by
  decide

/-- C8, evaluated.  The device reports the ranges 50 to 200 Hz and 300 to
400 Hz; the channel is valid, the frequency 100 Hz is supplied and lies
within the first range, and a sample rate is supplied.  By the rules of the
specification the rate 0 is rejected as an invalid sample rate and the rate 2
passes.  The code does not reach its sample-rate check: for both rates
`receive` returns `EXIT_FAILURE` with `frequency out of range`, having
configured nothing. -/
theorem receive_sample_rate_check_not_reached :
    (g0.currentChannel < dTwoRanges.getNumChannels ∧ g0.currentFrequencySet = true ∧
      g0.currentSampleRateSet = true ∧
      (⟨50, 200⟩ : Range) ∈ dTwoRanges.getFrequencyRange g0.currentChannel ∧
      (50 : ℚ) ≤ g0.currentFrequency ∧ g0.currentFrequency ≤ 200) ∧
    (specValidate { g0 with currentSampleRate := 0 } dTwoRanges = some .invalidSampleRate ∧
      (receive { g0 with currentSampleRate := 0 } dTwoRanges mallocOk fourReads).outcome
        = .exited EXIT_FAILURE (some .frequencyOutOfRange)) ∧
    (specValidate { g0 with currentSampleRate := 2 } dTwoRanges = none ∧
      (receive { g0 with currentSampleRate := 2 } dTwoRanges mallocOk fourReads).outcome
        = .exited EXIT_FAILURE (some .frequencyOutOfRange) ∧
      (receive { g0 with currentSampleRate := 2 } dTwoRanges mallocOk fourReads).trace
        = [.make, .probe, .getNumChannels, .getFrequencyRange 0]) := by
  decide

/-- C9, evaluated against the rules of the specification.  With the ranges
50 to 200 Hz and 300 to 400 Hz, the frequency 100 Hz and no sample rate, the
first rule that fails is the missing sample rate, and `receive` reports
`frequency out of range`.  With no range reported, the same frequency and no
sample rate, the first rule that fails is the frequency range, and `receive`
reports `--samplerate is missing`.  With no range reported and a sample rate
supplied, the frequency rule fails and `receive` rejects nothing: it
configures the device and returns `EXIT_SUCCESS` on a requested exit. -/
theorem receive_first_failure_differs :
    (specValidate gNoRate dTwoRanges = some .samplerateMissing ∧
      (receive gNoRate dTwoRanges mallocOk []).outcome
        = .exited EXIT_FAILURE (some .frequencyOutOfRange)) ∧
    (specValidate gNoRate dNoRange = some .frequencyOutOfRange ∧
      (receive gNoRate dNoRange mallocOk []).outcome
        = .exited EXIT_FAILURE (some .samplerateMissing)) ∧
    (specValidate g0 dNoRange = some .frequencyOutOfRange ∧
      receive g0 dNoRange mallocOk [⟨0, true⟩]
        = ⟨checkCalls g0 ++ configureCalls g0 ++ [.readStream 150, .deactivateStream,
              .closeStream, .unmake],
            .exited EXIT_SUCCESS none⟩) := by
  decide

end SoapySDRUtil
